import Mathlib

/-!
Verification of the flag health-check pipeline of ld-flag-health-check.

The development shallowly embeds the data-acquisition and reconciliation
pipeline of the repository: the flag evaluation engine
(getEnvironmentDefaultValue, valuesMatch, the BCP-health classification and
calculateSummary from the dashboard page), the rate-limit tracker
(RateLimiter.shouldThrottle and RateLimiter.waitIfNeeded from the rate
limiter utility), the retrying request executor (fetchWithRetry from the
retry utility), and the batch orchestrator (fetchFlagDetail and the
batched detail fetch from the flag-details-batch route).

JavaScript values that flow through the comparison logic are modelled by
the type JSVal: null and undefined are distinct constructors, numbers are
modelled by integers, and objects or arrays are modelled by a reference
identity, so that equality of JSVal is exactly the strict equality of the
source (scalar comparison by type and value, objects by reference, no
deep structural comparison).  Asynchronous code is modelled by explicit
oracles: one function gives the result of each outbound call, another the
completion latency of each call, and the embedding returns the value the
code computes together with the trace of waits it performs.
-/

namespace LDFlagHealth

/-- A JavaScript value as handled by the comparison logic.  Numbers are
modelled by integers and objects or arrays by an opaque reference
identity, because the source compares values only with strict equality. -/
inductive JSVal where
  | undef
  | null
  | bool (b : Bool)
  | num (n : Int)
  | str (s : String)
  | ref (id : Nat)
deriving DecidableEq

/-- The test `v === null || v === undefined` that the source repeats. -/
def isNullish : JSVal → Bool
  | JSVal.null => true
  | JSVal.undef => true
  | _ => false

/-- Embedding of valuesMatch from the dashboard page: null and undefined
match each other, and otherwise values are compared with strict
equality. -/
def valuesMatch (val1 val2 : JSVal) : Bool :=
  if isNullish val1 then isNullish val2
  else if isNullish val2 then false
  else decide (val1 = val2)

/-- One entry of the variations list of a flag definition. -/
structure Variation where
  value : JSVal
  name : Option String
deriving DecidableEq

/-- The fallthrough object of a per-environment configuration. -/
structure Fallthrough where
  variation : Option Int
deriving DecidableEq

/-- The per-environment configuration of a flag definition. -/
structure EnvConfig where
  isOn : Bool
  offVariation : Option Int
  fallthrough : Option Fallthrough
deriving DecidableEq

/-- A flag definition (the FlagDetail interface of the dashboard page).
The environments map is modelled as an association list. -/
structure FlagDetail where
  key : String
  name : String
  variations : Option (List Variation)
  environments : Option (List (String × EnvConfig))
  deprecated : Option Bool
  archived : Option Bool
deriving DecidableEq

/-- The result object of getEnvironmentDefaultValue.  Fields that the
indeterminate branch leaves undefined are options. -/
structure ProdResult where
  value : JSVal
  error : Bool
  isOn : Option Bool
  variationIndex : Option Int
  variationName : Option String
deriving DecidableEq

/-- The object returned by every indeterminate branch of
getEnvironmentDefaultValue. -/
def prodNA : ProdResult :=
  { value := JSVal.str "N/A", error := true, isOn := none,
    variationIndex := none, variationName := none }

/-- JavaScript array subscripting with a possibly negative or
out-of-range integer index: any index without an entry yields
undefined, modelled as none. -/
def jsIndex (variations : List Variation) (i : Int) : Option Variation :=
  if 0 ≤ i then variations.get? i.toNat else none

/-- Embedding of getEnvironmentDefaultValue from the dashboard page.
A missing definition, a missing environments map, a missing entry for the
environment, a missing governing variation index, or an index that does
not resolve in the variations list all yield the not-available result;
otherwise the governing index is the fallthrough variation when the
environment is on and the off variation when it is off, and the resolved
variation supplies the value and name. -/
def getEnvironmentDefaultValue (detail : Option FlagDetail) (environment : String) :
    ProdResult :=
  match detail with
  | none => prodNA
  | some d =>
    match d.environments with
    | none => prodNA
    | some envMap =>
      match envMap.lookup environment with
      | none => prodNA
      | some env =>
        let variations := d.variations.getD []
        let variationIndex : Option Int :=
          if env.isOn = true then env.fallthrough.bind Fallthrough.variation
          else env.offVariation
        match variationIndex with
        | none => prodNA
        | some idx =>
          match jsIndex variations idx with
          | none => prodNA
          | some variation =>
            { value := variation.value, error := false, isOn := some env.isOn,
              variationIndex := some idx, variationName := variation.name }

/-- A flag status record as consumed by the dashboard (the FlagStatus
interface): status name, code fallback value, last evaluation time and
the link to the flag definition. -/
structure FlagStatus where
  name : String
  default : JSVal
  lastRequested : Option String
  parentHref : Option String
deriving DecidableEq

/-- The per-flag outcome of the batch fetch (the FlagDetailResult
interface): the status record plus either a definition or an error
message. -/
structure FlagDetailResult where
  flagStatus : FlagStatus
  detail : Option FlagDetail
  error : Option String
deriving DecidableEq

/-- The test `defaultValue === undefined` of the dashboard page. -/
def isUnknownDefault (defaultValue : JSVal) : Bool :=
  decide (defaultValue = JSVal.undef)

/-- The null-like test of the dashboard page:
`defaultValue === null || defaultValue === undefined || isUnknownDefault`. -/
def isFallbackNull (defaultValue : JSVal) : Bool :=
  decide (defaultValue = JSVal.null) || decide (defaultValue = JSVal.undef)
    || isUnknownDefault defaultValue

/-- The mismatch test of the dashboard page: a mismatch needs a
non-null-like fallback, a determinate environment default, and values
that do not match. -/
def hasMismatch (defaultValue : JSVal) (prodResult : ProdResult) : Bool :=
  !(isFallbackNull defaultValue) && !prodResult.error
    && !(valuesMatch defaultValue prodResult.value)

/-- The three-way BCP-health verdict of a flag card. -/
inductive Classification where
  | matched
  | mismatched
  | indeterminate
deriving DecidableEq

/-- The BCP-health classification chain of the flag card rendering:
null-like fallback, then indeterminate environment default, then the
mismatch test, and otherwise a match. -/
def classify (defaultValue : JSVal) (prodResult : ProdResult) : Classification :=
  if isFallbackNull defaultValue then Classification.indeterminate
  else if prodResult.error then Classification.indeterminate
  else if hasMismatch defaultValue prodResult then Classification.mismatched
  else Classification.matched

/-- The environment default used for one batch outcome:
`detail ? getEnvironmentDefaultValue(detail, env) : only-an-error`. -/
def prodResultOf (fd : FlagDetailResult) (env : String) : ProdResult :=
  match fd.detail with
  | some d => getEnvironmentDefaultValue (some d) env
  | none => prodNA

/-- The classification the dashboard assigns to one batch outcome. -/
def classifyOutcome (fd : FlagDetailResult) (env : String) : Classification :=
  classify fd.flagStatus.default (prodResultOf fd env)

/-- The summary statistics of calculateSummary. -/
structure Summary where
  all : Nat
  launched : Nat
  active : Nat
  inactive : Nat
  mismatches : Nat
deriving DecidableEq

/-- One step of the forEach loop of calculateSummary: bump the status
bucket of the flag and, when the mismatch test holds, the mismatch
count. -/
def summaryStep (env : String) (acc : Summary) (fd : FlagDetailResult) : Summary :=
  let status := fd.flagStatus.name
  let defaultValue := fd.flagStatus.default
  let acc1 :=
    if status = "launched" then { acc with launched := acc.launched + 1 }
    else if status = "active" then { acc with active := acc.active + 1 }
    else if status = "inactive" then { acc with inactive := acc.inactive + 1 }
    else acc
  let prodResult := prodResultOf fd env
  if hasMismatch defaultValue prodResult then
    { acc1 with mismatches := acc1.mismatches + 1 }
  else acc1

/-- Embedding of calculateSummary from the dashboard page: fold the
batch outcomes through the counting step, and report the length of the
status list as the total. -/
def calculateSummary (flags : List FlagStatus) (flagDetails : List FlagDetailResult)
    (env : String) : Summary :=
  let s := flagDetails.foldl (summaryStep env)
    { all := 0, launched := 0, active := 0, inactive := 0, mismatches := 0 }
  { s with all := flags.length }

/-- The quota state of the rate limiter (the RateLimitInfo interface):
remaining global and per-route quota, reset time and retry-after, each
unknown until a header has been observed. -/
structure RateLimitInfo where
  globalRemaining : Option Int
  routeRemaining : Option Int
  resetTime : Option Int
  retryAfter : Option Int
deriving DecidableEq

/-- The lowest of the two remaining counts, ignoring unknown values: the
source takes the minimum after replacing unknown values by infinity, so
the result is unknown exactly when both inputs are. -/
def lowestRemaining (globalRemaining routeRemaining : Option Int) : Option Int :=
  match globalRemaining, routeRemaining with
  | none, none => none
  | some g, none => some g
  | none, some r => some r
  | some g, some r => some (min g r)

/-- Embedding of RateLimiter.shouldThrottle: false when both counts are
unknown, and otherwise true exactly when the defined lowest remaining
count is strictly below the threshold (the finiteness test of the source
corresponds to the lowest count being defined). -/
def shouldThrottle (info : RateLimitInfo) (threshold : Int) : Bool :=
  match info.globalRemaining, info.routeRemaining with
  | none, none => false
  | g, r =>
    match lowestRemaining g r with
    | none => false
    | some lowest => decide (lowest < threshold)

/-- Embedding of RateLimiter.waitIfNeeded at a given current time.  The
result is the duration the caller is suspended for, or none when the call
proceeds immediately.  When throttled at the default threshold 10, the
wait is the retry-after value converted from seconds to milliseconds when
known, otherwise the time until reset plus a 100 millisecond buffer when
the reset time is known, otherwise zero; the caller sleeps only when the
wait is positive and strictly below 15000 milliseconds. -/
def waitIfNeeded (info : RateLimitInfo) (now : Int) : Option Int :=
  if shouldThrottle info 10 then
    let waitTime : Int :=
      match info.retryAfter with
      | some ra => ra * 1000
      | none =>
        match info.resetTime with
        | some rt => max 0 (rt - now + 100)
        | none => 0
    if 0 < waitTime ∧ waitTime < 15000 then some waitTime else none
  else none

/-- The retry configuration of the retry utility (the RetryOptions
interface merged with its defaults). -/
structure RetryConfig where
  maxRetries : Nat
  initialDelay : Nat
  maxDelay : Nat
  backoffMultiplier : Nat
  retryableStatuses : List Nat
  retryableErrors : List String
deriving DecidableEq

/-- The default options of the retry utility. -/
def DEFAULT_OPTIONS : RetryConfig :=
  { maxRetries := 3, initialDelay := 1000, maxDelay := 30000,
    backoffMultiplier := 2,
    retryableStatuses := [429, 500, 502, 503, 504],
    retryableErrors := ["ECONNRESET", "ETIMEDOUT", "ENOTFOUND"] }

/-- An HTTP response as the retry loop inspects it: a status code and the
already-parsed value of the Retry-After header in seconds, when the
header is present. -/
structure Response where
  status : Nat
  retryAfter : Option Nat
deriving DecidableEq

/-- The ok test of a fetch response: status in the 2xx range. -/
def Response.ok (r : Response) : Bool :=
  decide (200 ≤ r.status) && decide (r.status ≤ 299)

/-- The outcome of one underlying fetch attempt: either a response, or a
transport-level failure carrying its optional error code. -/
inductive AttemptResult where
  | response (r : Response)
  | failure (code : Option String)
deriving DecidableEq

/-- An observable suspension or call event of the executor: invoking the
rate-limit tracker's throttle delay, issuing the numbered fetch attempt,
or sleeping for a backoff wait in milliseconds. -/
inductive Event where
  | throttleDelay
  | attempt (n : Nat)
  | sleep (ms : Nat)
deriving DecidableEq

/-- What a logical call through the retry loop produces: a returned
response (successful or not), a propagated thrown error, or the
unreachable fall-out of the loop. -/
inductive RetryOutcome where
  | resp (r : Response)
  | thrown (code : Option String)
  | exhausted
deriving DecidableEq

/-- The body of the retry loop of fetchWithRetry, with the loop modelled
by fuel (the number of remaining loop iterations) and the current attempt
counter, and the underlying fetch modelled by an oracle from attempt
number to attempt outcome.  Mirrors the source: a 2xx response returns at
once; a retryable status returns the response when the attempt counter
has reached the retry budget and otherwise sleeps the minimum of the
wait (the Retry-After header in milliseconds when present, otherwise the
capped exponential backoff delay) and the maximum delay, then retries;
any other status returns at once; a failure with a retryable code and
budget left sleeps the capped backoff delay and retries, otherwise the
error propagates. -/
def retryGo (cfg : RetryConfig) (attempts : Nat → AttemptResult) :
    Nat → Nat → RetryOutcome × List Event
  | 0, _ => (RetryOutcome.exhausted, [])
  | fuel + 1, attempt =>
    match attempts attempt with
    | AttemptResult.response r =>
      if r.ok then (RetryOutcome.resp r, [Event.attempt attempt])
      else if r.status ∈ cfg.retryableStatuses then
        if attempt = cfg.maxRetries then (RetryOutcome.resp r, [Event.attempt attempt])
        else
          let delay := min (cfg.initialDelay * cfg.backoffMultiplier ^ attempt) cfg.maxDelay
          let waitTime :=
            match r.retryAfter with
            | some secs => secs * 1000
            | none => delay
          let rest := retryGo cfg attempts fuel (attempt + 1)
          (rest.1, Event.attempt attempt :: Event.sleep (min waitTime cfg.maxDelay) :: rest.2)
      else (RetryOutcome.resp r, [Event.attempt attempt])
    | AttemptResult.failure code =>
      let isRetryable :=
        match code with
        | some c => decide (c ∈ cfg.retryableErrors)
        | none => false
      if isRetryable = false ∨ attempt = cfg.maxRetries then
        (RetryOutcome.thrown code, [Event.attempt attempt])
      else
        let delay := min (cfg.initialDelay * cfg.backoffMultiplier ^ attempt) cfg.maxDelay
        let rest := retryGo cfg attempts fuel (attempt + 1)
        (rest.1, Event.attempt attempt :: Event.sleep delay :: rest.2)

/-- Embedding of fetchWithRetry: run the retry loop from attempt zero,
with enough fuel for the maxRetries-plus-one iterations of the source
loop. -/
def fetchWithRetry (cfg : RetryConfig) (attempts : Nat → AttemptResult) :
    RetryOutcome × List Event :=
  retryGo cfg attempts (cfg.maxRetries + 1) 0

/-- The milliseconds of the sleep events of a trace, in order. -/
def sleepsOf (events : List Event) : List Nat :=
  events.filterMap fun e =>
    match e with
    | Event.sleep ms => some ms
    | _ => none

/-- How many times a trace invokes the tracker's throttle delay. -/
def countThrottle (events : List Event) : Nat :=
  events.countP fun e => decide (e = Event.throttleDelay)

/-- How many fetch attempts a trace issues. -/
def countAttempts (events : List Event) : Nat :=
  events.countP fun e =>
    match e with
    | Event.attempt _ => true
    | _ => false

/-- Embedding of the GET handler of the flag-statuses route, as far as
its suspension behaviour is concerned: it awaits the tracker's throttle
delay once and then performs one logical call through fetchWithRetry. -/
def flagStatusesGET (cfg : RetryConfig) (attempts : Nat → AttemptResult) :
    RetryOutcome × List Event :=
  let r := fetchWithRetry cfg attempts
  (r.1, Event.throttleDelay :: r.2)

/-- The outcome of the underlying detail fetch of one batch item: a
parsed definition on a 2xx response, a non-ok response, or a thrown
transport error carrying its message. -/
inductive FetchOutcome where
  | success (detail : FlagDetail)
  | httpError
  | thrown (msg : String)
deriving DecidableEq

/-- Embedding of fetchFlagDetail of the flag-details-batch route: a
missing or empty detail link yields an error outcome without any fetch;
otherwise a 2xx fetch yields the definition, a non-ok response yields the
fixed failure message, and a thrown error is caught and yields its
message.  Every branch returns an outcome carrying the status record. -/
def fetchFlagDetail (flagStatus : FlagStatus) (fetch : FetchOutcome) : FlagDetailResult :=
  match flagStatus.parentHref with
  | none =>
    { flagStatus := flagStatus, detail := none, error := some "No detail URL found" }
  | some url =>
    if url = "" then
      { flagStatus := flagStatus, detail := none, error := some "No detail URL found" }
    else
      match fetch with
      | FetchOutcome.success d =>
        { flagStatus := flagStatus, detail := some d, error := none }
      | FetchOutcome.httpError =>
        { flagStatus := flagStatus, detail := none, error := some "Failed to fetch detail" }
      | FetchOutcome.thrown msg =>
        { flagStatus := flagStatus, detail := none, error := some msg }

/-- The wave size of the batch orchestrator. -/
def batchSize : Nat := 15

/-- One settlement event of a wave: the promise of local index i settles
and writes its result into slot i. -/
def settleStep (tasks : List α) (slots : Nat → Option α) (i : Nat) : Nat → Option α :=
  fun j => if j = i then tasks.get? i else slots j

/-- The slot assignment after all settlement events of a wave have run in
the given order. -/
def settleWrites (tasks : List α) (order : List Nat) : Nat → Option α :=
  order.foldl (settleStep tasks) (fun _ => none)

/-- The order in which the promises of one wave settle, given a
completion latency for each local index: indices sorted by latency. -/
def settleOrder (n : Nat) (latency : Nat → Nat) : List Nat :=
  List.insertionSort (fun i j => latency i ≤ latency j) (List.range n)

/-- The semantics of awaiting all promises of one wave: each promise
settles in latency order and writes its slot, and the settled array is
read out in index order. -/
def promiseAll (tasks : List α) (latency : Nat → Nat) : List α :=
  (List.range tasks.length).filterMap
    (settleWrites tasks (settleOrder tasks.length latency))

/-- The task list of one wave: each status record of the wave paired with
the outcome of its own fetch, the oracle being indexed by the global
input position of the item. -/
def batchTasks (fetch : Nat → FetchOutcome) : Nat → List FlagStatus → List FlagDetailResult
  | _, [] => []
  | start, f :: fs =>
    fetchFlagDetail f (fetch start) :: batchTasks fetch (start + 1) fs

/-- The wave loop of the batched detail fetch: slice off a wave of at
most batchSize items, issue all its fetches and await them all, then
continue with the remaining items (the inter-wave cooldown sleep has no
bearing on the outcomes and is not modelled). -/
def batchRun (fetch : Nat → FetchOutcome) (latency : Nat → Nat) :
    List FlagStatus → Nat → List FlagDetailResult
  | [], _ => []
  | f :: fs, start =>
    promiseAll (batchTasks fetch start ((f :: fs).take batchSize))
        (fun j => latency (start + j))
      ++ batchRun fetch latency ((f :: fs).drop batchSize) (start + batchSize)
termination_by l _ => l.length
decreasing_by simp [batchSize]; omega

/-- Embedding of the batched flag-detail fetch of the flag-details-batch
route (fetchFlagDetailsBatched of the browser script): run the wave loop
over the whole input from position zero. -/
def fetchFlagDetailsBatched (flags : List FlagStatus) (fetch : Nat → FetchOutcome)
    (latency : Nat → Nat) : List FlagDetailResult :=
  batchRun fetch latency flags 0

/-- The fallback substitution of the flag-card rendering: an absent
fallback is displayed as the literal string unknown; any other value is
displayed as itself. -/
def displayedFallback (v : JSVal) : JSVal :=
  if isUnknownDefault v then JSVal.str "unknown" else v

/-! ### Concrete fixtures used by witnesses and counterexamples -/

/-- An enabled environment configuration whose fallthrough serves
variation one. -/
def exampleEnvOn : EnvConfig :=
  { isOn := true, offVariation := some 0,
    fallthrough := some { variation := some 1 } }

/-- A disabled environment configuration with no off variation. -/
def exampleEnvOff : EnvConfig :=
  { isOn := false, offVariation := none,
    fallthrough := some { variation := some 1 } }

/-- A boolean flag definition whose production environment serves the
fallthrough variation true. -/
def exampleDetail : FlagDetail :=
  { key := "example-flag", name := "Example Flag",
    variations := some
      [{ value := JSVal.bool false, name := some "Off" },
       { value := JSVal.bool true, name := some "On" }],
    environments := some [("production", exampleEnvOn)],
    deprecated := none, archived := none }

/-- A flag definition whose production environment is off with no off
variation configured. -/
def exampleOffDetail : FlagDetail :=
  { key := "off-flag", name := "Off Flag",
    variations := some
      [{ value := JSVal.bool false, name := some "Off" },
       { value := JSVal.bool true, name := some "On" }],
    environments := some [("production", exampleEnvOff)],
    deprecated := none, archived := none }

/-- A determinate environment default of boolean true. -/
def exampleProdTrue : ProdResult :=
  { value := JSVal.bool true, error := false, isOn := some true,
    variationIndex := some 1, variationName := some "On" }

/-- A status record whose code fallback is the literal string unknown. -/
def unknownFallbackStatus : FlagStatus :=
  { name := "active", default := JSVal.str "unknown",
    lastRequested := none, parentHref := some "/api/v2/flags/proj/example-flag" }

/-- The batch outcome pairing the literal-string-unknown fallback with
the boolean flag definition. -/
def unknownFallbackOutcome : FlagDetailResult :=
  { flagStatus := unknownFallbackStatus, detail := some exampleDetail, error := none }

/-! ### Helper lemmas on the evaluation engine -/

lemma isFallbackNull_eq_isNullish (v : JSVal) : isFallbackNull v = isNullish v := by
  cases v <;> simp [isFallbackNull, isNullish, isUnknownDefault]

lemma valuesMatch_eq_decide (v w : JSVal) (h : isNullish v = false) :
    valuesMatch v w = decide (v = w) := by
  by_cases hw : isNullish w = true
  · have hne : v ≠ w := by
      intro hvw
      rw [hvw, hw] at h
      simp at h
    simp [valuesMatch, h, hw, hne]
  · have hw2 : isNullish w = false := by
      cases hwv : isNullish w
      · rfl
      · exact absurd hwv hw
    simp [valuesMatch, h, hw2]

lemma classify_eq_mismatched_iff (fb : JSVal) (pr : ProdResult) :
    classify fb pr = Classification.mismatched ↔ hasMismatch fb pr = true := by
  by_cases h1 : isFallbackNull fb = true
  · simp [classify, hasMismatch, h1]
  · have h1f : isFallbackNull fb = false := by
      cases hh : isFallbackNull fb
      · rfl
      · exact absurd hh h1
    by_cases h2 : pr.error = true
    · simp [classify, hasMismatch, h1f, h2]
    · have h2f : pr.error = false := by
        cases hh : pr.error
        · rfl
        · exact absurd hh h2
      by_cases h3 : valuesMatch fb pr.value = true
      · simp [classify, hasMismatch, h1f, h2f, h3]
      · have h3f : valuesMatch fb pr.value = false := by
          cases hh : valuesMatch fb pr.value
          · rfl
          · exact absurd hh h3
        simp [classify, hasMismatch, h1f, h2f, h3f]

lemma summaryStep_mismatches (env : String) (acc : Summary) (fd : FlagDetailResult) :
    (summaryStep env acc fd).mismatches
      = acc.mismatches
        + (if hasMismatch fd.flagStatus.default (prodResultOf fd env) then 1 else 0) := by
  simp only [summaryStep]
  split_ifs <;> rfl

lemma foldl_summary_mismatches (env : String) :
    ∀ (fds : List FlagDetailResult) (acc : Summary),
      (fds.foldl (summaryStep env) acc).mismatches
        = acc.mismatches
          + fds.countP (fun fd => hasMismatch fd.flagStatus.default (prodResultOf fd env))
  | [], acc => by simp
  | fd :: rest, acc => by
    simp only [List.foldl_cons, List.countP_cons]
    rw [foldl_summary_mismatches env rest (summaryStep env acc fd), summaryStep_mismatches]
    by_cases h : hasMismatch fd.flagStatus.default (prodResultOf fd env) = true
    · simp [h]
      omega
    · simp [h]

/-! ### Claim theorems on the evaluation engine -/

/-- C1: the flag classification is three-way.  A null or absent fallback
classifies as indeterminate; with a determinable fallback, an
indeterminate environment default classifies as indeterminate, never as
match or mismatch; otherwise the flag classifies as match exactly when
the fallback equals the effective default under strict type-and-value
equality and as mismatch otherwise; and the mismatch count of the
summary counts exactly the flags classified as mismatch, so an
indeterminate flag is never counted there. -/
theorem C1_classification_three_way :
    (∀ (fb : JSVal) (pr : ProdResult),
        (isNullish fb = true → classify fb pr = Classification.indeterminate)
        ∧ (isNullish fb = false → pr.error = true →
            classify fb pr = Classification.indeterminate)
        ∧ (isNullish fb = false → pr.error = false →
            ((classify fb pr = Classification.matched ↔ fb = pr.value)
              ∧ (classify fb pr = Classification.mismatched ↔ fb ≠ pr.value))))
    ∧ (∀ (flags : List FlagStatus) (fds : List FlagDetailResult) (env : String),
        (calculateSummary flags fds env).mismatches
          = fds.countP
              (fun fd => decide (classifyOutcome fd env = Classification.mismatched))) := by
  constructor
  · intro fb pr
    refine ⟨?_, ?_, ?_⟩
    · intro h
      simp [classify, isFallbackNull_eq_isNullish, h]
    · intro h he
      simp [classify, isFallbackNull_eq_isNullish, h, he]
    · intro h he
      by_cases hev : fb = pr.value
      · subst hev
        have hv := valuesMatch_eq_decide pr.value pr.value h
        simp [classify, hasMismatch, isFallbackNull_eq_isNullish, h, he, hv]
      · simp [classify, hasMismatch, isFallbackNull_eq_isNullish, h, he,
          valuesMatch_eq_decide fb pr.value h, hev]
  · intro flags fds env
    simp only [calculateSummary]
    rw [foldl_summary_mismatches]
    have hp : (fun fd => hasMismatch fd.flagStatus.default (prodResultOf fd env))
        = fun fd => decide (classifyOutcome fd env = Classification.mismatched) := by
      funext fd
      by_cases hh : hasMismatch fd.flagStatus.default (prodResultOf fd env) = true <;>
        simp [classifyOutcome, classify_eq_mismatched_iff, hh]
    rw [hp]
    simp

/-- C1 witness: the concrete classification vectors and the summary of a
one-flag batch, obtained from the three-way classification theorem. -/
theorem C1_witness :
    classify JSVal.null exampleProdTrue = Classification.indeterminate
    ∧ classify (JSVal.bool true) exampleProdTrue = Classification.matched
    ∧ classify (JSVal.bool false) exampleProdTrue = Classification.mismatched
    ∧ classify (JSVal.bool true) prodNA = Classification.indeterminate
    ∧ (calculateSummary [unknownFallbackStatus] [unknownFallbackOutcome] "production").mismatches
        = List.countP
            (fun fd => decide (classifyOutcome fd "production" = Classification.mismatched))
            [unknownFallbackOutcome] :=
  ⟨(C1_classification_three_way.1 JSVal.null exampleProdTrue).1 rfl,
   ((C1_classification_three_way.1 (JSVal.bool true) exampleProdTrue).2.2 rfl rfl).1.mpr rfl,
   ((C1_classification_three_way.1 (JSVal.bool false) exampleProdTrue).2.2 rfl rfl).2.mpr
     (by decide),
   (C1_classification_three_way.1 (JSVal.bool true) prodNA).2.1 rfl rfl,
   C1_classification_three_way.2 [unknownFallbackStatus] [unknownFallbackOutcome] "production"⟩

/-- C2: deriving the environment default never crashes and follows the
specified cases.  A missing definition, a missing environments map or
entry, an absent governing index (the fallthrough variation when the
environment is on, the off variation otherwise), or an index that does
not resolve in the variations list all yield the indeterminate result;
otherwise the result carries the resolved variation value, the governing
index and the variation name. -/
theorem C2_deriveEnvironmentDefault_cases :
    ∀ (environment : String) (d : FlagDetail),
      (getEnvironmentDefaultValue none environment = prodNA ∧ prodNA.error = true)
      ∧ (d.environments = none →
          getEnvironmentDefaultValue (some d) environment = prodNA)
      ∧ (∀ em, d.environments = some em → em.lookup environment = none →
          getEnvironmentDefaultValue (some d) environment = prodNA)
      ∧ (∀ em e, d.environments = some em → em.lookup environment = some e →
          ((if e.isOn = true then e.fallthrough.bind Fallthrough.variation
            else e.offVariation) = none →
            getEnvironmentDefaultValue (some d) environment = prodNA)
          ∧ (∀ idx,
              (if e.isOn = true then e.fallthrough.bind Fallthrough.variation
               else e.offVariation) = some idx →
              (jsIndex (d.variations.getD []) idx = none →
                getEnvironmentDefaultValue (some d) environment = prodNA)
              ∧ (∀ v, jsIndex (d.variations.getD []) idx = some v →
                  (getEnvironmentDefaultValue (some d) environment).value = v.value
                  ∧ (getEnvironmentDefaultValue (some d) environment).error = false
                  ∧ (getEnvironmentDefaultValue (some d) environment).variationIndex
                      = some idx
                  ∧ (getEnvironmentDefaultValue (some d) environment).variationName
                      = v.name))) := by
  intro environment d
  refine ⟨⟨rfl, rfl⟩, ?_, ?_, ?_⟩
  · intro h
    simp [getEnvironmentDefaultValue, h]
  · intro em hem hlk
    simp [getEnvironmentDefaultValue, hem, hlk]
  · intro em e hem hlk
    constructor
    · intro hgov
      simp [getEnvironmentDefaultValue, hem, hlk, hgov]
    · intro idx hgov
      constructor
      · intro hidx
        simp [getEnvironmentDefaultValue, hem, hlk, hgov, hidx]
      · intro v hidx
        simp [getEnvironmentDefaultValue, hem, hlk, hgov, hidx]

/-- C2 witness: the two specified vectors, obtained from the case
theorem: an enabled environment with fallthrough variation one over a
false and a true variation serves true at index one, and a disabled
environment with no off variation is indeterminate. -/
theorem C2_witness :
    (getEnvironmentDefaultValue (some exampleDetail) "production").value = JSVal.bool true
    ∧ (getEnvironmentDefaultValue (some exampleDetail) "production").variationIndex
        = some 1
    ∧ getEnvironmentDefaultValue (some exampleOffDetail) "production" = prodNA := by
  have h1 :=
    (((C2_deriveEnvironmentDefault_cases "production" exampleDetail).2.2.2
        [("production", exampleEnvOn)] exampleEnvOn rfl (by decide)).2 1 rfl).2
      { value := JSVal.bool true, name := some "On" } rfl
  have h2 :=
    ((C2_deriveEnvironmentDefault_cases "production" exampleOffDetail).2.2.2
        [("production", exampleEnvOff)] exampleEnvOff rfl (by decide)).1 rfl
  exact ⟨h1.1, h1.2.2.1, h2⟩

/-- C9 counterexample: a flag whose code fallback is the literal string
unknown, compared against a determinate environment default of boolean
true, classifies as mismatch (not indeterminate) and is counted in the
mismatch count of the summary. -/
theorem C9_counterexample :
    classifyOutcome unknownFallbackOutcome "production" = Classification.mismatched
    ∧ (calculateSummary [unknownFallbackStatus] [unknownFallbackOutcome]
        "production").mismatches = 1 := by
  constructor
  · decide
  · decide

/-- C9 (amended): only a null or absent fallback is folded into the
null-like case; an absent fallback is displayed as the literal string
unknown, and that substitution is the only special treatment of the
string.  A fallback that is itself the literal string unknown is
compared like any other string against a determinate environment
default: match exactly when the default is the same string, mismatch
otherwise. -/
theorem C9_amended_unknown_literal :
    ∀ (pr : ProdResult) (v : JSVal),
      classify JSVal.undef pr = Classification.indeterminate
      ∧ classify JSVal.null pr = Classification.indeterminate
      ∧ displayedFallback JSVal.undef = JSVal.str "unknown"
      ∧ (isUnknownDefault v = false → displayedFallback v = v)
      ∧ (pr.error = false →
          classify (JSVal.str "unknown") pr
            = if pr.value = JSVal.str "unknown" then Classification.matched
              else Classification.mismatched) := by
  intro pr v
  refine ⟨?_, ?_, rfl, ?_, ?_⟩
  · simp [classify, isFallbackNull, isUnknownDefault]
  · simp [classify, isFallbackNull, isUnknownDefault]
  · intro h
    simp [displayedFallback, h]
  · intro he
    by_cases hev : pr.value = JSVal.str "unknown"
    · simp [classify, hasMismatch, isFallbackNull, isUnknownDefault, he, hev,
        valuesMatch, isNullish]
    · have hv := valuesMatch_eq_decide (JSVal.str "unknown") pr.value rfl
      have hne : JSVal.str "unknown" ≠ pr.value := fun hh => hev hh.symm
      simp [classify, hasMismatch, isFallbackNull, isUnknownDefault, he, hv, hne, hev]

/-- C9 amended witness: the substitution and comparison facts at the
concrete environment default of boolean true, obtained from the amended
theorem. -/
theorem C9_amended_witness :
    classify JSVal.undef exampleProdTrue = Classification.indeterminate
    ∧ displayedFallback (JSVal.bool true) = JSVal.bool true
    ∧ classify (JSVal.str "unknown") exampleProdTrue = Classification.mismatched := by
  refine ⟨(C9_amended_unknown_literal exampleProdTrue (JSVal.bool true)).1,
    (C9_amended_unknown_literal exampleProdTrue (JSVal.bool true)).2.2.2.1 rfl, ?_⟩
  have h := (C9_amended_unknown_literal exampleProdTrue (JSVal.bool true)).2.2.2.2 rfl
  rw [h]
  decide

/-! ### Claim theorems on the rate-limit tracker -/

/-- A quota state with only the global count known, below the throttle
threshold, and a known reset time. -/
def lowQuotaInfo : RateLimitInfo :=
  { globalRemaining := some 5, routeRemaining := none,
    resetTime := some 100000, retryAfter := none }

/-- The quota state before any quota header has been observed. -/
def emptyQuotaInfo : RateLimitInfo :=
  { globalRemaining := none, routeRemaining := none,
    resetTime := none, retryAfter := none }

/-- C6: the throttle predicate at threshold ten is true exactly when the
minimum of the remaining counts, ignoring unknown values, is defined and
strictly below ten; in particular it is false whenever both counts are
unknown. -/
theorem C6_shouldThrottle_iff :
    ∀ (info : RateLimitInfo),
      (info.globalRemaining = none → info.routeRemaining = none →
        shouldThrottle info 10 = false)
      ∧ (∀ g r, info.globalRemaining = some g → info.routeRemaining = some r →
          (shouldThrottle info 10 = true ↔ min g r < 10))
      ∧ (∀ g, info.globalRemaining = some g → info.routeRemaining = none →
          (shouldThrottle info 10 = true ↔ g < 10))
      ∧ (∀ r, info.globalRemaining = none → info.routeRemaining = some r →
          (shouldThrottle info 10 = true ↔ r < 10)) := by
  intro info
  refine ⟨?_, ?_, ?_, ?_⟩
  · intro hg hr
    simp [shouldThrottle, hg, hr]
  · intro g r hg hr
    simp [shouldThrottle, lowestRemaining, hg, hr]
  · intro g hg hr
    simp [shouldThrottle, lowestRemaining, hg, hr]
  · intro r hg hr
    simp [shouldThrottle, lowestRemaining, hg, hr]

/-- C6 witness: a five-of-unknown quota state throttles at threshold
ten, and the all-unknown state does not, by the characterization
theorem. -/
theorem C6_witness :
    shouldThrottle lowQuotaInfo 10 = true
    ∧ shouldThrottle emptyQuotaInfo 10 = false :=
  ⟨((C6_shouldThrottle_iff lowQuotaInfo).2.2.1 5 rfl rfl).mpr (by decide),
   (C6_shouldThrottle_iff emptyQuotaInfo).1 rfl rfl⟩

/-- C7: when the tracker is throttled, the computed wait is the
retry-after value in milliseconds when known and otherwise the time to
reset plus a 100 millisecond buffer, and the caller is suspended exactly
when that wait is positive and strictly below 15000 milliseconds; every
suspension that does happen is strictly shorter than 15 seconds. -/
theorem C7_waitIfNeeded_bounds :
    ∀ (info : RateLimitInfo) (now : Int),
      (shouldThrottle info 10 = false → waitIfNeeded info now = none)
      ∧ (shouldThrottle info 10 = true →
          (∀ ra, info.retryAfter = some ra →
            waitIfNeeded info now
              = if 0 < ra * 1000 ∧ ra * 1000 < 15000 then some (ra * 1000) else none)
          ∧ (info.retryAfter = none → ∀ rt, info.resetTime = some rt →
              waitIfNeeded info now
                = if 0 < rt - now + 100 ∧ rt - now + 100 < 15000
                  then some (rt - now + 100) else none)
          ∧ (info.retryAfter = none → info.resetTime = none →
              waitIfNeeded info now = none))
      ∧ (∀ w, waitIfNeeded info now = some w → 0 < w ∧ w < 15000) := by
  intro info now
  refine ⟨?_, ?_, ?_⟩
  · intro h
    simp [waitIfNeeded, h]
  · intro ht
    refine ⟨?_, ?_, ?_⟩
    · intro ra hra
      simp [waitIfNeeded, ht, hra]
    · intro hra rt hrt
      rcases le_or_lt (rt - now + 100) 0 with hle | hpos
      · rw [if_neg]
        · simp [waitIfNeeded, ht, hra, hrt, max_eq_left hle]
        · exact fun hc => absurd hc.1 (not_lt.mpr hle)
      · simp [waitIfNeeded, ht, hra, hrt, max_eq_right (le_of_lt hpos)]
    · intro hra hrt
      simp [waitIfNeeded, ht, hra, hrt]
  · intro w hw
    unfold waitIfNeeded at hw
    by_cases ht : shouldThrottle info 10 = true
    · rw [if_pos ht] at hw
      cases hra : info.retryAfter with
      | some ra =>
        simp only [hra] at hw
        split_ifs at hw with hc
        injection hw with h2
        exact h2 ▸ hc
      | none =>
        cases hrt : info.resetTime with
        | some rt =>
          simp only [hra, hrt] at hw
          split_ifs at hw with hc
          injection hw with h2
          exact h2 ▸ hc
        | none =>
          simp only [hra, hrt] at hw
          split_ifs at hw with hc
          injection hw with h2
          exact h2 ▸ hc
    · rw [if_neg ht] at hw
      exact Option.noConfusion hw

/-- C7 witness: with five remaining, no retry-after and a reset 1000
milliseconds out, the tracker sleeps 1100 milliseconds; with the reset
50100 milliseconds out the computed wait reaches the 15 second bound and
the call proceeds immediately; the bounds come from the theorem. -/
theorem C7_witness :
    waitIfNeeded lowQuotaInfo 99000 = some 1100
    ∧ waitIfNeeded lowQuotaInfo 50000 = none
    ∧ (0 : Int) < 1100 ∧ (1100 : Int) < 15000 := by
  have hthr : shouldThrottle lowQuotaInfo 10 = true := by decide
  have h1 := ((C7_waitIfNeeded_bounds lowQuotaInfo 99000).2.1 hthr).2.1 rfl 100000 rfl
  have h2 := ((C7_waitIfNeeded_bounds lowQuotaInfo 50000).2.1 hthr).2.1 rfl 100000 rfl
  have he1 : waitIfNeeded lowQuotaInfo 99000 = some 1100 := by
    rw [h1]
    decide
  have hb := (C7_waitIfNeeded_bounds lowQuotaInfo 99000).2.2 1100 he1
  refine ⟨he1, ?_, hb⟩
  rw [h2]
  decide

/-! ### Claim theorems on the retrying request executor -/

/-- The per-retry wait the corrected claim predicts: the Retry-After
header converted to milliseconds when present (taking precedence over
the backoff schedule), otherwise the exponential backoff delay, in both
cases capped at the configured maximum delay.  Stated separately from
the executor so the schedule theorem compares the code against it. -/
def specRetryWait (cfg : RetryConfig) (attempt : Nat) (r : Response) : Nat :=
  min
    (match r.retryAfter with
     | some secs => secs * 1000
     | none => cfg.initialDelay * cfg.backoffMultiplier ^ attempt)
    cfg.maxDelay

lemma sleepsOf_nil : sleepsOf [] = [] := rfl

lemma sleepsOf_attempt (n : Nat) (l : List Event) :
    sleepsOf (Event.attempt n :: l) = sleepsOf l := rfl

lemma sleepsOf_sleep (ms : Nat) (l : List Event) :
    sleepsOf (Event.sleep ms :: l) = ms :: sleepsOf l := rfl

lemma sleepsOf_throttle (l : List Event) :
    sleepsOf (Event.throttleDelay :: l) = sleepsOf l := rfl

lemma countThrottle_nil : countThrottle [] = 0 := rfl

lemma countThrottle_cons (e : Event) (l : List Event) :
    countThrottle (e :: l)
      = countThrottle l + (if e = Event.throttleDelay then 1 else 0) := by
  simp [countThrottle, List.countP_cons]

/-- One step of the retry loop on a non-ok retryable response with
budget left: record the attempt, sleep the capped wait, and continue at
the next attempt with one unit of fuel less. -/
lemma retryGo_step_retry (cfg : RetryConfig) (attempts : Nat → AttemptResult)
    (fuel attempt : Nat) (r : Response)
    (hat : attempts attempt = AttemptResult.response r)
    (hok : r.ok = false) (hst : r.status ∈ cfg.retryableStatuses)
    (hne : attempt ≠ cfg.maxRetries) :
    retryGo cfg attempts (fuel + 1) attempt
      = ((retryGo cfg attempts fuel (attempt + 1)).1,
         Event.attempt attempt
           :: Event.sleep (specRetryWait cfg attempt r)
           :: (retryGo cfg attempts fuel (attempt + 1)).2) := by
  cases hra : r.retryAfter with
  | some secs =>
    simp [retryGo, hat, hok, hst, hne, specRetryWait, hra]
  | none =>
    simp [retryGo, hat, hok, hst, hne, specRetryWait, hra, min_assoc]

/-- On an oracle whose every attempt yields a non-ok retryable response,
the retry loop started at any attempt with matching fuel returns the
response of the final attempt and sleeps the predicted capped wait
between consecutive attempts. -/
lemma retryGo_all_retryable (cfg : RetryConfig) (rs : Nat → Response)
    (hok : ∀ i, (rs i).ok = false)
    (hst : ∀ i, (rs i).status ∈ cfg.retryableStatuses) :
    ∀ (f attempt : Nat), attempt + (f + 1) = cfg.maxRetries + 1 →
      (retryGo cfg (fun i => AttemptResult.response (rs i)) (f + 1) attempt).1
          = RetryOutcome.resp (rs cfg.maxRetries)
        ∧ sleepsOf (retryGo cfg (fun i => AttemptResult.response (rs i)) (f + 1) attempt).2
          = (List.range' attempt f).map (fun a => specRetryWait cfg a (rs a)) := by
  intro f
  induction f with
  | zero =>
    intro attempt h
    have ha : attempt = cfg.maxRetries := by omega
    subst ha
    simp [retryGo, hok, hst, sleepsOf]
  | succ f ih =>
    intro attempt h
    have hne : attempt ≠ cfg.maxRetries := by omega
    obtain ⟨ih1, ih2⟩ := ih (attempt + 1) (by omega)
    have hstep := retryGo_step_retry cfg (fun i => AttemptResult.response (rs i))
      (f + 1) attempt (rs attempt) rfl (hok attempt) (hst attempt) hne
    rw [hstep]
    constructor
    · exact ih1
    · rw [sleepsOf_attempt, sleepsOf_sleep, ih2, List.range'_succ, List.map_cons]

/-- Every sleep the retry loop performs is capped at the configured
maximum delay. -/
lemma retryGo_sleeps_le (cfg : RetryConfig) (attempts : Nat → AttemptResult) :
    ∀ (fuel attempt s : Nat),
      s ∈ sleepsOf (retryGo cfg attempts fuel attempt).2 → s ≤ cfg.maxDelay := by
  intro fuel
  induction fuel with
  | zero =>
    intro attempt s hs
    simp [retryGo, sleepsOf] at hs
  | succ fuel ih =>
    intro attempt s hs
    cases hat : attempts attempt with
    | response r =>
      by_cases hok : r.ok = true
      · simp [retryGo, hat, hok, sleepsOf] at hs
      · by_cases hmem : r.status ∈ cfg.retryableStatuses
        · by_cases hmax : attempt = cfg.maxRetries
          · subst hmax
            simp [retryGo, hat, hok, sleepsOf] at hs
          · simp [retryGo, hat, hok, hmem, hmax, sleepsOf_attempt, sleepsOf_sleep] at hs
            rcases hs with rfl | hs
            · exact min_le_right _ _
            · exact ih _ s hs
        · simp [retryGo, hat, hok, hmem, sleepsOf] at hs
    | failure code =>
      cases code with
      | none =>
        simp [retryGo, hat, sleepsOf] at hs
      | some c =>
        by_cases hc : c ∈ cfg.retryableErrors
        · by_cases hmax : attempt = cfg.maxRetries
          · subst hmax
            simp [retryGo, hat, hc, sleepsOf] at hs
          · simp [retryGo, hat, hc, hmax, sleepsOf_attempt, sleepsOf_sleep] at hs
            rcases hs with rfl | hs
            · exact min_le_right _ _
            · exact ih _ s hs
        · simp [retryGo, hat, hc, sleepsOf] at hs

/-- The retry loop itself never invokes the rate-limit tracker: its
trace holds no throttle-delay event. -/
lemma retryGo_countThrottle (cfg : RetryConfig) (attempts : Nat → AttemptResult) :
    ∀ (fuel attempt : Nat), countThrottle (retryGo cfg attempts fuel attempt).2 = 0 := by
  intro fuel
  induction fuel with
  | zero =>
    intro attempt
    simp [retryGo, countThrottle]
  | succ fuel ih =>
    intro attempt
    cases hat : attempts attempt with
    | response r =>
      by_cases hok : r.ok = true
      · simp [retryGo, hat, hok, countThrottle]
      · by_cases hmem : r.status ∈ cfg.retryableStatuses
        · by_cases hmax : attempt = cfg.maxRetries
          · subst hmax
            simp [retryGo, hat, hok, countThrottle]
          · simp [retryGo, hat, hok, hmem, hmax, countThrottle_cons, ih]
        · simp [retryGo, hat, hok, hmem, countThrottle]
    | failure code =>
      cases code with
      | none =>
        simp [retryGo, hat, countThrottle]
      | some c =>
        by_cases hc : c ∈ cfg.retryableErrors
        · by_cases hmax : attempt = cfg.maxRetries
          · subst hmax
            simp [retryGo, hat, hc, countThrottle]
          · simp [retryGo, hat, hc, hmax, countThrottle_cons, ih]
        · simp [retryGo, hat, hc, countThrottle]

/-- An oracle answering a retryable 429 whose Retry-After header asks
for sixty seconds, then a success. -/
def overCapAttempts : Nat → AttemptResult :=
  fun n =>
    if n = 0 then AttemptResult.response { status := 429, retryAfter := some 60 }
    else AttemptResult.response { status := 200, retryAfter := none }

/-- An oracle answering 503 with no Retry-After header on every
attempt. -/
def serverErrorResponse : Response := { status := 503, retryAfter := none }

/-- An oracle answering 404 on every attempt. -/
def notFoundAttempts : Nat → AttemptResult :=
  fun _ => AttemptResult.response { status := 404, retryAfter := none }

/-- An oracle answering a retryable 429 without a Retry-After header,
then a success. -/
def retryThenOkAttempts : Nat → AttemptResult :=
  fun n =>
    if n = 0 then AttemptResult.response { status := 429, retryAfter := none }
    else AttemptResult.response { status := 200, retryAfter := none }

/-- C5 counterexample: on a 429 whose Retry-After header asks for sixty
seconds (60000 milliseconds), the executor with default options sleeps
30000 milliseconds — the maximum-delay cap — not the 60000 milliseconds
the claim says the Retry-After value imposes. -/
theorem C5_counterexample :
    sleepsOf (fetchWithRetry DEFAULT_OPTIONS overCapAttempts).2 = [30000]
    ∧ (fetchWithRetry DEFAULT_OPTIONS overCapAttempts).1
        = RetryOutcome.resp { status := 200, retryAfter := none }
    ∧ 60 * 1000 = 60000 ∧ (30000 : Nat) ≠ 60000 := by
  refine ⟨by decide, by decide, rfl, by decide⟩

/-- C5 (amended): on a response with a retryable status and attempts
remaining the executor sleeps the Retry-After value in milliseconds when
the header is present (taking precedence over backoff), otherwise the
exponential backoff delay, in both cases capped at the maximum delay;
after exhausting retries it returns the last failing response rather
than throwing; and on a non-retryable error status it returns the
response immediately, with no sleep and no further attempt. -/
theorem C5_retry_behaviour :
    ∀ (cfg : RetryConfig) (rs : Nat → Response) (attempts : Nat → AttemptResult)
      (r : Response),
      ((∀ i, (rs i).ok = false) → (∀ i, (rs i).status ∈ cfg.retryableStatuses) →
        (fetchWithRetry cfg (fun i => AttemptResult.response (rs i))).1
            = RetryOutcome.resp (rs cfg.maxRetries)
          ∧ sleepsOf (fetchWithRetry cfg (fun i => AttemptResult.response (rs i))).2
            = (List.range cfg.maxRetries).map (fun a => specRetryWait cfg a (rs a)))
      ∧ (attempts 0 = AttemptResult.response r → r.ok = false →
          r.status ∉ cfg.retryableStatuses →
          fetchWithRetry cfg attempts = (RetryOutcome.resp r, [Event.attempt 0])) := by
  intro cfg rs attempts r
  constructor
  · intro hok hst
    have h := retryGo_all_retryable cfg rs hok hst cfg.maxRetries 0 (by omega)
    constructor
    · exact h.1
    · rw [show List.range cfg.maxRetries = List.range' 0 cfg.maxRetries from
        List.range_eq_range' _]
      exact h.2
  · intro h0 hok hst
    show retryGo cfg attempts (cfg.maxRetries + 1) 0 = _
    simp [retryGo, h0, hok, hst]

/-- C5 amended witness: with default options, three retryable 503
responses are followed by the backoff sleeps 1000, 2000 and 4000
milliseconds and the last 503 is returned; a 404 returns immediately
after the first attempt with no sleep; both by the amended theorem. -/
theorem C5_witness :
    (fetchWithRetry DEFAULT_OPTIONS (fun _ => AttemptResult.response serverErrorResponse)).1
        = RetryOutcome.resp serverErrorResponse
    ∧ sleepsOf
        (fetchWithRetry DEFAULT_OPTIONS
          (fun _ => AttemptResult.response serverErrorResponse)).2
        = [1000, 2000, 4000]
    ∧ fetchWithRetry DEFAULT_OPTIONS notFoundAttempts
        = (RetryOutcome.resp { status := 404, retryAfter := none }, [Event.attempt 0]) := by
  have h :=
    (C5_retry_behaviour DEFAULT_OPTIONS (fun _ => serverErrorResponse) notFoundAttempts
        { status := 404, retryAfter := none }).1
      (fun _ => rfl) (fun _ => by decide)
  have h2 :=
    (C5_retry_behaviour DEFAULT_OPTIONS (fun _ => serverErrorResponse) notFoundAttempts
        { status := 404, retryAfter := none }).2
      rfl rfl (by decide)
  refine ⟨h.1, ?_, h2⟩
  rw [h.2]
  decide

/-- C10: every sleep the executor inserts between attempts is at most
the configured maximum delay, whose default is 30000 milliseconds; the
cap applies to the exponential backoff and to the Retry-After derived
wait alike. -/
theorem C10_sleep_capped :
    (∀ (cfg : RetryConfig) (attempts : Nat → AttemptResult) (s : Nat),
        s ∈ sleepsOf (fetchWithRetry cfg attempts).2 → s ≤ cfg.maxDelay)
    ∧ DEFAULT_OPTIONS.maxDelay = 30000 := by
  constructor
  · intro cfg attempts s hs
    exact retryGo_sleeps_le cfg attempts (cfg.maxRetries + 1) 0 s hs
  · rfl

/-- C10 witness: the single sleep produced by the over-cap Retry-After
oracle is 30000 milliseconds, and the cap theorem bounds it by the
default maximum delay. -/
theorem C10_witness :
    30000 ∈ sleepsOf (fetchWithRetry DEFAULT_OPTIONS overCapAttempts).2
    ∧ (30000 : Nat) ≤ DEFAULT_OPTIONS.maxDelay :=
  ⟨by decide, C10_sleep_capped.1 DEFAULT_OPTIONS overCapAttempts 30000 (by decide)⟩

/-- C8 counterexample: a logical call through the flag-statuses route
that retries once issues two attempts but invokes the tracker's throttle
delay only once, before the first attempt — no throttle delay separates
the first attempt from the retry. -/
theorem C8_counterexample :
    (flagStatusesGET DEFAULT_OPTIONS retryThenOkAttempts).2
        = [Event.throttleDelay, Event.attempt 0, Event.sleep 1000, Event.attempt 1]
    ∧ countAttempts (flagStatusesGET DEFAULT_OPTIONS retryThenOkAttempts).2 = 2
    ∧ countThrottle (flagStatusesGET DEFAULT_OPTIONS retryThenOkAttempts).2 = 1 := by
  refine ⟨by decide, by decide, by decide⟩

/-- C8 (amended): the route handler invokes the tracker's throttle delay
exactly once per logical call, before the first attempt; the retry loop
never invokes it between attempts. -/
theorem C8_throttle_once :
    ∀ (cfg : RetryConfig) (attempts : Nat → AttemptResult),
      (flagStatusesGET cfg attempts).2.head? = some Event.throttleDelay
      ∧ countThrottle (flagStatusesGET cfg attempts).2 = 1 := by
  intro cfg attempts
  constructor
  · rfl
  · show countThrottle (Event.throttleDelay :: (fetchWithRetry cfg attempts).2) = 1
    rw [countThrottle_cons]
    have h0 : countThrottle (fetchWithRetry cfg attempts).2 = 0 :=
      retryGo_countThrottle cfg attempts (cfg.maxRetries + 1) 0
    rw [h0]
    simp

/-! ### Claim theorems on the batch orchestrator -/

lemma settleFoldl_not_mem (tasks : List α) :
    ∀ (order : List Nat) (init : Nat → Option α) (j : Nat), j ∉ order →
      order.foldl (settleStep tasks) init j = init j := by
  intro order
  induction order with
  | nil =>
    intro init j h
    rfl
  | cons i rest ih =>
    intro init j h
    have hj : j ∉ rest := fun hr => h (List.mem_cons_of_mem i hr)
    have hji : j ≠ i := fun hhh => h (hhh ▸ List.mem_cons_self i rest)
    rw [List.foldl_cons, ih _ j hj]
    simp [settleStep, hji]

lemma settleFoldl_mem (tasks : List α) :
    ∀ (order : List Nat) (init : Nat → Option α) (j : Nat), j ∈ order →
      order.foldl (settleStep tasks) init j = tasks.get? j := by
  intro order
  induction order with
  | nil =>
    intro init j h
    cases h
  | cons i rest ih =>
    intro init j h
    by_cases hr : j ∈ rest
    · rw [List.foldl_cons]
      exact ih _ j hr
    · have hji : j = i := by
        rcases List.mem_cons.mp h with h1 | h2
        · exact h1
        · exact absurd h2 hr
      rw [List.foldl_cons, settleFoldl_not_mem tasks rest _ j hr]
      simp [settleStep, hji]

lemma filterMap_get?_range (tasks : List α) :
    (List.range tasks.length).filterMap (fun j => tasks.get? j) = tasks := by
  induction tasks with
  | nil => rfl
  | cons t ts ih =>
    have hcomp : ((fun j => (t :: ts).get? j) ∘ Nat.succ) = fun j => ts.get? j := by
      funext j
      rfl
    rw [List.length_cons, List.range_succ_eq_map, List.filterMap_cons,
      List.filterMap_map, hcomp, ih]
    rfl

/-- Awaiting all promises of a wave yields the task results in task
order, whatever the completion latencies are. -/
lemma promiseAll_eq (tasks : List α) (latency : Nat → Nat) :
    promiseAll tasks latency = tasks := by
  unfold promiseAll
  have hmem : ∀ j ∈ List.range tasks.length,
      settleWrites tasks (settleOrder tasks.length latency) j = tasks.get? j := by
    intro j hj
    exact settleFoldl_mem tasks _ _ j
      ((List.perm_insertionSort _ _).mem_iff.mpr hj)
  rw [List.filterMap_congr hmem]
  exact filterMap_get?_range tasks

lemma batchTasks_take_drop (fetch : Nat → FetchOutcome) :
    ∀ (l : List FlagStatus) (n start : Nat),
      batchTasks fetch start (l.take n) ++ batchTasks fetch (start + n) (l.drop n)
        = batchTasks fetch start l := by
  intro l
  induction l with
  | nil =>
    intro n start
    simp [batchTasks]
  | cons f fs ih =>
    intro n start
    cases n with
    | zero => simp [batchTasks]
    | succ m =>
      simp only [List.take_succ_cons, List.drop_succ_cons, batchTasks, List.cons_append]
      rw [show start + (m + 1) = start + 1 + m by omega, ih]

lemma batchTasks_length (fetch : Nat → FetchOutcome) :
    ∀ (l : List FlagStatus) (start : Nat), (batchTasks fetch start l).length = l.length := by
  intro l
  induction l with
  | nil =>
    intro start
    rfl
  | cons f fs ih =>
    intro start
    simp [batchTasks, ih]

lemma batchTasks_getElem? (fetch : Nat → FetchOutcome) :
    ∀ (l : List FlagStatus) (start i : Nat),
      (batchTasks fetch start l)[i]?
        = (l[i]?).map (fun s => fetchFlagDetail s (fetch (start + i))) := by
  intro l
  induction l with
  | nil =>
    intro start i
    simp [batchTasks]
  | cons f fs ih =>
    intro start i
    cases i with
    | zero => simp [batchTasks]
    | succ i =>
      simp only [batchTasks, List.getElem?_cons_succ]
      rw [ih (start + 1) i, show start + 1 + i = start + (i + 1) by omega]

/-- The wave loop computes the same outcomes as the sequential indexed
pass over the whole input, for every latency assignment. -/
lemma batchRun_eq (fetch : Nat → FetchOutcome) (latency : Nat → Nat) :
    ∀ (n : Nat) (flags : List FlagStatus), flags.length ≤ n → ∀ start,
      batchRun fetch latency flags start = batchTasks fetch start flags := by
  intro n
  induction n with
  | zero =>
    intro flags h start
    have hnil : flags = [] := List.length_eq_zero.mp (Nat.le_zero.mp h)
    subst hnil
    simp [batchRun, batchTasks]
  | succ n ih =>
    intro flags h start
    match flags with
    | [] => simp [batchRun, batchTasks]
    | f :: fs =>
      have hlen : ((f :: fs).drop batchSize).length ≤ n := by
        simp only [List.length_drop, List.length_cons, batchSize]
        simp only [List.length_cons] at h
        omega
      rw [batchRun, promiseAll_eq, ih ((f :: fs).drop batchSize) hlen (start + batchSize),
        batchTasks_take_drop]

/-- C4: the batch orchestrator returns exactly one outcome per input
item, in input order, for every per-item fetch result and every
assignment of completion latencies: it equals the sequential indexed
pass, preserves the length, and its i-th outcome is the fetch outcome of
the i-th input. -/
theorem C4_batch_order_and_length :
    ∀ (flags : List FlagStatus) (fetch : Nat → FetchOutcome) (latency : Nat → Nat),
      fetchFlagDetailsBatched flags fetch latency = batchTasks fetch 0 flags
      ∧ (fetchFlagDetailsBatched flags fetch latency).length = flags.length
      ∧ ∀ i, (fetchFlagDetailsBatched flags fetch latency)[i]?
          = (flags[i]?).map (fun s => fetchFlagDetail s (fetch i)) := by
  intro flags fetch latency
  have he : fetchFlagDetailsBatched flags fetch latency = batchTasks fetch 0 flags := by
    unfold fetchFlagDetailsBatched
    exact batchRun_eq fetch latency flags.length flags le_rfl 0
  refine ⟨he, ?_, ?_⟩
  · rw [he, batchTasks_length]
  · intro i
    rw [he, batchTasks_getElem? fetch flags 0 i]
    simp

/-- C3: once settled, every flag outcome has exactly one of the
definition and the fetch error populated, never both and never neither;
and the outcome of an item depends only on that item's own status record
and fetch result — another item's failure, or any change of completion
latencies, never alters it and never aborts the batch. -/
theorem C3_outcome_exactly_one :
    (∀ (s : FlagStatus) (f : FetchOutcome),
        ((fetchFlagDetail s f).detail.isSome = true ∧ (fetchFlagDetail s f).error = none)
        ∨ ((fetchFlagDetail s f).detail = none
            ∧ (fetchFlagDetail s f).error.isSome = true))
    ∧ (∀ (flags : List FlagStatus) (fetch fetch2 : Nat → FetchOutcome)
        (latency latency2 : Nat → Nat) (i : Nat),
        fetch i = fetch2 i →
        (fetchFlagDetailsBatched flags fetch latency)[i]?
          = (fetchFlagDetailsBatched flags fetch2 latency2)[i]?) := by
  constructor
  · intro s f
    unfold fetchFlagDetail
    cases hp : s.parentHref with
    | none =>
      right
      exact ⟨rfl, rfl⟩
    | some url =>
      by_cases hu : url = ""
      · right
        simp [hu]
      · cases f with
        | success d =>
          left
          simp [hu]
        | httpError =>
          right
          simp [hu]
        | thrown msg =>
          right
          simp [hu]
  · intro flags fetch fetch2 latency latency2 i hf
    unfold fetchFlagDetailsBatched
    rw [batchRun_eq fetch latency flags.length flags le_rfl 0,
      batchRun_eq fetch2 latency2 flags.length flags le_rfl 0,
      batchTasks_getElem?, batchTasks_getElem?]
    simp only [Nat.zero_add]
    rw [hf]

/-- A fetch oracle that succeeds on every item. -/
def fetchAllOk : Nat → FetchOutcome := fun _ => FetchOutcome.success exampleDetail

/-- A fetch oracle that succeeds on the first item and throws on every
other item. -/
def fetchOkThenBoom : Nat → FetchOutcome :=
  fun i => if i = 0 then FetchOutcome.success exampleDetail else FetchOutcome.thrown "boom"

/-- C3 witness: the exactly-one invariant at a concrete successful fetch
and a concrete thrown fetch, and the isolation of item zero of a
one-item batch between an all-ok oracle and an oracle that fails
elsewhere, under different latencies, by the invariant theorem. -/
theorem C3_witness :
    (((fetchFlagDetail unknownFallbackStatus
          (FetchOutcome.success exampleDetail)).detail.isSome = true
        ∧ (fetchFlagDetail unknownFallbackStatus
            (FetchOutcome.success exampleDetail)).error = none)
      ∨ ((fetchFlagDetail unknownFallbackStatus
            (FetchOutcome.success exampleDetail)).detail = none
          ∧ (fetchFlagDetail unknownFallbackStatus
              (FetchOutcome.success exampleDetail)).error.isSome = true))
    ∧ (fetchFlagDetailsBatched [unknownFallbackStatus] fetchAllOk (fun _ => 0))[0]?
        = (fetchFlagDetailsBatched [unknownFallbackStatus] fetchOkThenBoom
            (fun i => 100 - i))[0]? :=
  ⟨C3_outcome_exactly_one.1 unknownFallbackStatus (FetchOutcome.success exampleDetail),
   C3_outcome_exactly_one.2 [unknownFallbackStatus] fetchAllOk fetchOkThenBoom
     (fun _ => 0) (fun i => 100 - i) 0 rfl⟩

end LDFlagHealth
